import Mathlib

/-
Formal model of the 2D random-walker simulation
(walker.py, plane.py, utils.py, simulation.py).

Modelling conventions:
* Python floats are modelled as exact rational arithmetic (ℚ).
* Randomness (random.uniform / random.choice / random.choices) is modelled by
  passing the drawn values as explicit inputs to the functions that consume
  them: the per-step proposed displacement and, for has_possible_moves on
  walker types 1 and 2, the list of probed random directions.
* Python exceptions are modelled by Option / Except: a `none` result of a
  modelled function corresponds to the source raising an exception at the
  corresponding program point.
* walker.get_distance() returns math.sqrt(x**2 + y**2), an irrational real.
  The simulation model is therefore parametrised over the distance function
  `dist : ℚ × ℚ → ℚ` used at walker.get_distance() call sites; every theorem
  about the simulation loop is proved for an arbitrary `dist`, hence in
  particular for (any rational reading of) the true Euclidean distance.
* Point.distance comparisons inside Plane.check_intersection are modelled by
  comparing squared Euclidean distances, which is equivalent because
  Real.sqrt is strictly monotone on squared distances (see
  `sqDist_lt_iff_sqrt_lt` below).
-/

set_option autoImplicit false

/-! ## walker.py -/

/-- walker.py module constant NORMAL_WALKER. -/
def NORMAL_WALKER : ℤ := 1

/-- walker.py module constant UNEVEN_STEP_WALKER. -/
def UNEVEN_STEP_WALKER : ℤ := 2

/-- walker.py module constant DISCRETE_WALKER. -/
def DISCRETE_WALKER : ℤ := 3

/-- walker.py module constant UNEVEN_DISTRIBUTION_WALKER. -/
def UNEVEN_DISTRIBUTION_WALKER : ℤ := 4

/-- walker.py ACCEPTABLE_WALKER_TYPES (a set in the source; modelled as the
list of its elements, membership is all the source uses it for). -/
def acceptableWalkerTypes : List ℤ := [1, 2, 3, 4]

/-- State of a `Walker` object (walker.py).  Field names follow the private
attributes `__x`, `__y`, `__steps`, `__path`, `__weights`, `__walker_type`. -/
structure Walker where
  x : ℚ
  y : ℚ
  steps : ℕ
  path : List (ℚ × ℚ)
  weights : List ℤ
  walker_type : ℤ
deriving DecidableEq

/-- `Walker.__init__(walker_type, weights)`: initialises position (0,0),
steps 0, path [(0,0)], stores the weights unchecked, and raises ValueError
(modelled as `.error ()`) iff the walker type is not acceptable.  Note the
constructor performs no validation of the weights at all. -/
def walkerInit (walker_type : ℤ) (weights : List ℤ) : Except Unit Walker :=
  if walker_type ∈ acceptableWalkerTypes then
    .ok { x := 0, y := 0, steps := 0, path := [(0, 0)],
          weights := weights, walker_type := walker_type }
  else
    .error ()

/-- `Walker.move(dx, dy)`: translate the position by the displacement,
increment the step counter, append the new position to the path. -/
def Walker.move (w : Walker) (dx dy : ℚ) : Walker :=
  { w with x := w.x + dx, y := w.y + dy, steps := w.steps + 1,
           path := w.path ++ [(w.x + dx, w.y + dy)] }

/-- `Walker.set_position(x, y)`: overwrite the coordinates only. -/
def Walker.set_position (w : Walker) (x y : ℚ) : Walker :=
  { w with x := x, y := y }

/-- `Walker.get_position()`. -/
def Walker.get_position (w : Walker) : ℚ × ℚ := (w.x, w.y)

/-! ## plane.py : geometry

plane.py delegates segment intersection to shapely
(`LineString.intersection`).  `segInter` below models it exactly over ℚ:
two closed segments meet in nothing, in a single point, or (collinear case)
in a common subsegment of positive length.  In the last case shapely returns
a LineString and `Plane.check_intersection` raises AttributeError when it
evaluates `intersection.x`; the model reports that case as `SegInter.overlap`
and `checkIntersection` then returns `none` (= the source raises). -/

/-- Difference of two points/vectors. -/
def vsub (a b : ℚ × ℚ) : ℚ × ℚ := (a.1 - b.1, a.2 - b.2)

/-- 2D cross product. -/
def cross2 (a b : ℚ × ℚ) : ℚ := a.1 * b.2 - a.2 * b.1

/-- 2D dot product. -/
def dot2 (a b : ℚ × ℚ) : ℚ := a.1 * b.1 + a.2 * b.2

/-- Squared Euclidean distance.  Point.distance in the source is
`Real.sqrt` of this; all the source does with distances is compare them,
and `Real.sqrt` is strictly monotone (see `sqDist_lt_iff_sqrt_lt`). -/
def sqDist (a b : ℚ × ℚ) : ℚ := (a.1 - b.1) ^ 2 + (a.2 - b.2) ^ 2

/-- `p` lies on the closed non-degenerate segment from `a` to `b`. -/
def onSegment (p a b : ℚ × ℚ) : Bool :=
  decide (cross2 (vsub b a) (vsub p a) = 0) &&
  decide (0 ≤ dot2 (vsub p a) (vsub b a)) &&
  decide (dot2 (vsub p a) (vsub b a) ≤ dot2 (vsub b a) (vsub b a))

/-- Result of intersecting two closed segments. -/
inductive SegInter where
  | empty : SegInter
  | point : ℚ × ℚ → SegInter
  | overlap : SegInter
deriving DecidableEq

/-- Exact intersection of closed segment [a,b] with closed segment [c,d]
(the shapely `LineString([a,b]).intersection(LineString([c,d]))` call used by
`Plane.check_intersection`).  `overlap` is the collinear positive-length
common-subsegment case (shapely returns a LineString there). -/
def segInter (a b c d : ℚ × ℚ) : SegInter :=
  if a = b then
    if c = d then (if a = c then .point a else .empty)
    else (if onSegment a c d then .point a else .empty)
  else if c = d then
    (if onSegment c a b then .point c else .empty)
  else
    let d1 := vsub b a
    let d2 := vsub d c
    let rp := vsub c a
    let denom := cross2 d1 d2
    if denom ≠ 0 then
      let t := cross2 rp d2 / denom
      let u := cross2 rp d1 / denom
      if 0 ≤ t ∧ t ≤ 1 ∧ 0 ≤ u ∧ u ≤ 1 then
        .point (a.1 + t * d1.1, a.2 + t * d1.2)
      else .empty
    else
      if cross2 rp d1 ≠ 0 then .empty
      else
        let len := dot2 d1 d1
        let tc := dot2 (vsub c a) d1 / len
        let td := dot2 (vsub d a) d1 / len
        let lo := max 0 (min tc td)
        let hi := min 1 (max tc td)
        if lo > hi then .empty
        else if lo = hi then .point (a.1 + lo * d1.1, a.2 + lo * d1.2)
        else .overlap

/-! ## plane.py : Obstacle, Portal, Plane -/

/-- State of an `Obstacle` object.  `endp` models the private attribute
`__end` (`end` is reserved in Lean). -/
structure Obstacle where
  start : ℚ × ℚ
  endp : ℚ × ℚ
deriving DecidableEq

/-- State of a `Portal` object. -/
structure Portal where
  start : ℚ × ℚ
  endp : ℚ × ℚ
  destination : ℚ × ℚ
deriving DecidableEq

/-- State of a `Plane` object.  The lists record insertion order, exactly as
the Python lists `__walkers`, `__obstacles`, `__portals` do. -/
structure Plane where
  walkers : List Walker
  obstacles : List Obstacle
  portals : List Portal
deriving DecidableEq

/-- `Plane.add_obstacle`. -/
def Plane.add_obstacle (pl : Plane) (o : Obstacle) : Plane :=
  { pl with obstacles := pl.obstacles ++ [o] }

/-- `Plane.add_portal`. -/
def Plane.add_portal (pl : Plane) (p : Portal) : Plane :=
  { pl with portals := pl.portals ++ [p] }

/-- The `intersected_type`/`intersected_object` pair tracked by the loops in
`Plane.check_intersection` ('obstacle' or 'portal' tag plus the object). -/
inductive Hit where
  | obstacle : Obstacle → Hit
  | portal : Portal → Hit
deriving DecidableEq

/-- Return value of `Plane.check_intersection`: either the `next_position`
argument unchanged, or the tagged intersected object. -/
inductive InterResult where
  | free : ℚ × ℚ → InterResult
  | obstacle : Obstacle → InterResult
  | portal : Portal → InterResult
deriving DecidableEq

/-- Convert the tracked best hit into the function's return value. -/
def hitRes : Hit → InterResult
  | .obstacle o => .obstacle o
  | .portal p => .portal p

/-- The obstacle loop of `Plane.check_intersection`.  The accumulator models
the pair (min_distance, intersected object/type): `none` is the initial state
min_distance = inf, intersected_object = None.  Distances are squared (see
`sqDist`).  A collinear-overlap intersection makes the source raise
AttributeError, modelled as `none`. -/
def scanObstacles (cur nxt : ℚ × ℚ) :
    List Obstacle → Option (ℚ × Hit) → Option (Option (ℚ × Hit))
  | [], acc => some acc
  | o :: rest, acc =>
    match segInter cur nxt o.start o.endp with
    | .overlap => none
    | .empty => scanObstacles cur nxt rest acc
    | .point ip =>
      match acc with
      | none => scanObstacles cur nxt rest (some (sqDist cur ip, .obstacle o))
      | some a =>
        if sqDist cur ip < a.1 then
          scanObstacles cur nxt rest (some (sqDist cur ip, .obstacle o))
        else scanObstacles cur nxt rest (some a)

/-- The portal loop of `Plane.check_intersection` (identical to the obstacle
loop except for the tag; min_distance persists from the obstacle loop). -/
def scanPortals (cur nxt : ℚ × ℚ) :
    List Portal → Option (ℚ × Hit) → Option (Option (ℚ × Hit))
  | [], acc => some acc
  | p :: rest, acc =>
    match segInter cur nxt p.start p.endp with
    | .overlap => none
    | .empty => scanPortals cur nxt rest acc
    | .point ip =>
      match acc with
      | none => scanPortals cur nxt rest (some (sqDist cur ip, .portal p))
      | some a =>
        if sqDist cur ip < a.1 then
          scanPortals cur nxt rest (some (sqDist cur ip, .portal p))
        else scanPortals cur nxt rest (some a)

/-- `Plane.check_intersection(current_position, next_position)`.  Returns
`next_position` if nothing intersects the path segment, otherwise the
tagged intersected object nearest to `current_position`; `none` models the
AttributeError raised when some intersection is a positive-length overlap. -/
def checkIntersection (pl : Plane) (cur nxt : ℚ × ℚ) : Option InterResult :=
  match scanObstacles cur nxt pl.obstacles none with
  | none => none
  | some acc1 =>
    match scanPortals cur nxt pl.portals acc1 with
    | none => none
    | some none => some (.free nxt)
    | some (some a) => some (hitRes a.2)

/-! ## Specification-side definitions for claim C1 -/

/-- All obstacles whose segment meets the path in a single point, with the
squared distance from `cur` to that point, in insertion order. -/
def obstacleHits (cur nxt : ℚ × ℚ) (l : List Obstacle) : List (ℚ × Hit) :=
  l.filterMap fun o =>
    match segInter cur nxt o.start o.endp with
    | .point ip => some (sqDist cur ip, .obstacle o)
    | _ => none

/-- All portals whose segment meets the path in a single point, with the
squared distance from `cur` to that point, in insertion order. -/
def portalHits (cur nxt : ℚ × ℚ) (l : List Portal) : List (ℚ × Hit) :=
  l.filterMap fun p =>
    match segInter cur nxt p.start p.endp with
    | .point ip => some (sqDist cur ip, .portal p)
    | _ => none

/-- Every intersecting segment in obstacle-then-portal insertion order. -/
def allHits (pl : Plane) (cur nxt : ℚ × ℚ) : List (ℚ × Hit) :=
  obstacleHits cur nxt pl.obstacles ++ portalHits cur nxt pl.portals

/-- No obstacle or portal segment meets the path in a positive-length
overlap (the configurations on which the source does not raise). -/
def NoOverlapAt (pl : Plane) (cur nxt : ℚ × ℚ) : Prop :=
  (∀ o ∈ pl.obstacles, segInter cur nxt o.start o.endp ≠ .overlap) ∧
  (∀ p ∈ pl.portals, segInter cur nxt p.start p.endp ≠ .overlap)

instance (pl : Plane) (cur nxt : ℚ × ℚ) : Decidable (NoOverlapAt pl cur nxt) := by
  unfold NoOverlapAt; infer_instance

/-- Spec-side selection (C1): `x` is an entry of `l` whose distance is a
minimum of all entries, and every earlier entry has strictly larger
distance — "the intersection point strictly closest to current, exact-
distance ties resolved to the first segment found". -/
def FirstMin (l : List (ℚ × Hit)) (x : ℚ × Hit) : Prop :=
  ∃ i : ℕ, l[i]? = some x ∧ (∀ y ∈ l, x.1 ≤ y.1) ∧
    (∀ j, j < i → ∀ y, l[j]? = some y → x.1 < y.1)

/-- One update of the (min_distance, best object) accumulator by a candidate
hit: a strictly smaller distance replaces the accumulator, otherwise (ties
included) the accumulator is kept. -/
def selStep (acc : Option (ℚ × Hit)) (x : ℚ × Hit) : Option (ℚ × Hit) :=
  match acc with
  | none => some x
  | some a => if x.1 < a.1 then some x else some a

/-- Reference recursion for `selStep` folding with a non-empty accumulator. -/
def runMin (m : ℚ) (b : Hit) : List (ℚ × Hit) → ℚ × Hit
  | [] => (m, b)
  | x :: xs => if x.1 < m then runMin x.1 x.2 xs else runMin m b xs

/-! ## utils.py : has_possible_moves -/

/-- Whether a `check_intersection` outcome counts as a possible move in
has_possible_moves: everything except an obstacle
(`not isinstance(intersection, tuple) or not isinstance(intersection[1], Obstacle)`). -/
def nonObstacle : InterResult → Bool
  | .obstacle _ => false
  | _ => true

/-- Pointwise sum, `(current[0] + move[0], current[1] + move[1])`. -/
def addPt (p m : ℚ × ℚ) : ℚ × ℚ := (p.1 + m.1, p.2 + m.2)

/-- The fixed candidate displacements of has_possible_moves:
UP, DOWN, RIGHT, LEFT and the return-to-origin displacement (-x, -y). -/
def fixedMoves (w : Walker) : List (ℚ × ℚ) :=
  [(0, 1), (0, -1), (1, 0), (-1, 0), (-w.x, -w.y)]

/-- One probing loop of has_possible_moves: test each displacement in turn
via check_intersection from `cur`, returning true at the first non-obstacle
outcome (the source's early `return True`); `none` models an exception
raised inside check_intersection. -/
def probeLoop (pl : Plane) (cur : ℚ × ℚ) : List (ℚ × ℚ) → Option Bool
  | [] => some false
  | m :: rest =>
    match checkIntersection pl cur (addPt cur m) with
    | none => none
    | some r => if nonObstacle r then some true else probeLoop pl cur rest

/-- `has_possible_moves(walker, plane)` (utils.py).  `probes` is the list of
random unit directions the source draws in its second loop (100 of them);
it is consulted only when the walker type is 1 or 2. -/
def hasPossibleMoves (w : Walker) (pl : Plane) (probes : List (ℚ × ℚ)) :
    Option Bool :=
  match probeLoop pl (w.x, w.y) (fixedMoves w) with
  | none => none
  | some true => some true
  | some false =>
    if w.walker_type ∈ [(1 : ℤ), 2] then probeLoop pl (w.x, w.y) probes
    else some false

/-! ## simulation.py : the per-run loop of run_simulation

The loop body (lines 57-105) is modelled by `simStep`, the loop by `runSim`.
Note a quirk of the source kept by the model: `next_position =
walker.get_next_move()` is a *displacement*, yet it is passed as the
`next_position` argument of check_intersection (so the tested segment runs
from the current position to the point whose coordinates are the
displacement), and on a free outcome `walker.move(*intersection)` then uses
the returned tuple — that same displacement — as the move. -/

/-- The random draws consumed by one loop iteration: the directions probed
by has_possible_moves (used only for walker types 1 and 2) and the
displacement returned by get_next_move. -/
structure StepInput where
  probes : List (ℚ × ℚ)
  move : ℚ × ℚ
deriving DecidableEq

/-- The per-run mutable state of run_simulation.  `stats` is
simulation_stats; `distO`, `distX`, `distY` are
simulation_distance_from_{origin,x_axis,y_axis}; `exitRecorded` models
`simulation_exit_time is not None` (the wall-clock value itself is not
modelled); `totO`, `totX`, `totY` are the cross-run accumulators
total_distance_from_{origin,x_axis,y_axis}. -/
structure RunState where
  walker : Walker
  stats : List (ℕ × (ℚ × ℚ × ℚ))
  distO : ℚ
  distX : ℚ
  distY : ℚ
  yCross : ℕ
  stepsToExit : ℕ
  exitRecorded : Bool
  unsuccessful : ℕ
  totO : ℚ
  totX : ℚ
  totY : ℚ
deriving DecidableEq

/-- Lines 62-73: resolve the proposed displacement through
check_intersection and apply the portal / obstacle / free semantics to the
walker.  Returns the updated walker and the increment (0 or 1) of
simulation_unsuccessful_moves. -/
def resolveMove (pl : Plane) (w : Walker) (mv : ℚ × ℚ) :
    Option (Walker × ℕ) :=
  match checkIntersection pl (w.x, w.y) mv with
  | none => none
  | some (.portal p) => some (w.set_position p.destination.1 p.destination.2, 0)
  | some (.obstacle _) => some (w, 1)
  | some (.free nxt) => some (w.move nxt.1 nxt.2, 0)

/-- Python `path[-2]`: the second-to-last entry; `none` models the
IndexError raised when the list has fewer than two entries. -/
def penultimate (l : List (ℚ × ℚ)) : Option (ℚ × ℚ) :=
  match l.reverse with
  | _ :: p :: _ => some p
  | _ => none

/-- Lines 83-86: the y-axis crossing test
`prev.x * cur.x < 0 or (prev.x * cur.x == 0 and prev.x * path[-2].x != 0)`,
with Python's left-to-right short-circuit evaluation; `none` models the
IndexError from `path[-2]` on a path with fewer than two entries. -/
def crossedY (prev pos : ℚ × ℚ) (path : List (ℚ × ℚ)) : Option Bool :=
  if prev.1 * pos.1 < 0 then some true
  else if prev.1 * pos.1 = 0 then
    match penultimate path with
    | some p2 => some (decide (prev.1 * p2.1 ≠ 0))
    | none => none
  else some false

/-- Lines 76-95: the `if walker.get_position() != previous_position:` block
(metric accumulation, crossing count, exit-radius capture, fold of the run
sums into the cross-run totals at the n_steps cutoff). -/
def accumPhase (dist : ℚ × ℚ → ℚ) (nSteps step : ℕ) (prev : ℚ × ℚ)
    (s : RunState) : Option RunState :=
  if (s.walker.x, s.walker.y) = prev then some s
  else
    let pos := (s.walker.x, s.walker.y)
    let s2 := { s with distO := s.distO + dist pos,
                       distX := s.distX + |pos.2|,
                       distY := s.distY + |pos.1| }
    match crossedY prev pos s.walker.path with
    | none => none
    | some c =>
      let s3 := if c then { s2 with yCross := s2.yCross + 1 } else s2
      let s4 := if s3.exitRecorded = false ∧ dist pos > 10 then
                  { s3 with exitRecorded := true,
                            stepsToExit := s3.walker.steps }
                else s3
      if nSteps = step + 1 then
        some { s4 with totO := s4.totO + s4.distO,
                       totX := s4.totX + s4.distX,
                       totY := s4.totY + s4.distY }
      else some s4

/-- Lines 97-105: compute the three running averages (sum divided by the
1-based step index) and append this step's statistics record. -/
def appendRecord (s : RunState) (step : ℕ) : RunState :=
  { s with stats := s.stats ++
      [(step + 1, (s.distX / (step + 1), s.distY / (step + 1),
                   s.distO / (step + 1)))] }

/-- Lines 76-105 as one function (run after the move resolution). -/
def statsPhase (dist : ℚ × ℚ → ℚ) (nSteps step : ℕ) (prev : ℚ × ℚ)
    (s : RunState) : Option RunState :=
  (accumPhase dist nSteps step prev s).map (fun t => appendRecord t step)

/-- One full iteration of the per-run loop (lines 61-105), given that
has_possible_moves already returned True for this iteration. -/
def simStep (dist : ℚ × ℚ → ℚ) (pl : Plane) (nSteps step : ℕ)
    (inp : StepInput) (s : RunState) : Option RunState :=
  match resolveMove pl s.walker inp.move with
  | none => none
  | some (w', u) =>
    statsPhase dist nSteps step (s.walker.x, s.walker.y)
      { s with walker := w', unsuccessful := s.unsuccessful + u }

/-- The per-run loop `for step in range(args.steps)` (lines 57-105): one
`StepInput` per iteration of `range(args.steps)`, early `break` when
has_possible_moves is false. -/
def runSim (dist : ℚ × ℚ → ℚ) (pl : Plane) (nSteps : ℕ) :
    List StepInput → ℕ → RunState → Option RunState
  | [], _, s => some s
  | inp :: rest, step, s =>
    match hasPossibleMoves s.walker pl inp.probes with
    | none => none
    | some false => some s
    | some true =>
      match simStep dist pl nSteps step inp s with
      | none => none
      | some s' => runSim dist pl nSteps rest (step + 1) s'

/-- The fresh per-run state created at the top of each simulation
iteration (all counters zero; the cross-run totals are taken as 0 here,
i.e. the state of the first run of a session). -/
def initRun (w : Walker) : RunState :=
  { walker := w, stats := [], distO := 0, distX := 0, distY := 0,
    yCross := 0, stepsToExit := 0, exitRecorded := false, unsuccessful := 0,
    totO := 0, totX := 0, totY := 0 }

/-! ## Specification-side definitions for claims C2 and C9 -/

/-- The walker invariant of claim C2: the path has step-count + 1 entries
and ends at the current position. -/
def WalkerInv (w : Walker) : Prop :=
  w.path.length = w.steps + 1 ∧ w.path.getLast? = some (w.x, w.y)

/-- Spec-side y-axis-crossing condition of claim C9, following the spec's
words: "sign of x flips between previous and current, OR previous x is
exactly on the axis while the position two steps prior was on the opposite
side" (of the current position). -/
def specCrossedYAxis (prevx curx twoPriorx : ℚ) : Prop :=
  prevx * curx < 0 ∨ (prevx = 0 ∧ twoPriorx * curx < 0)

/-! ## Helper lemmas -/

/-- Bridging lemma for the squared-distance embedding: comparing squared
distances is the same as comparing the Euclidean distances the source
compares (`Point.distance`). -/
theorem sqDist_lt_iff_sqrt_lt (a b c d : ℚ × ℚ) :
    sqDist a b < sqDist c d ↔
      Real.sqrt ((sqDist a b : ℚ) : ℝ) < Real.sqrt ((sqDist c d : ℚ) : ℝ) := by
  have hab : (0 : ℝ) ≤ ((sqDist a b : ℚ) : ℝ) := by
    have : (0 : ℚ) ≤ sqDist a b := by unfold sqDist; positivity
    exact_mod_cast this
  rw [Real.sqrt_lt_sqrt_iff hab]
  exact_mod_cast Iff.rfl

/-- `Walker.move` preserves the walker invariant. -/
theorem walkerInv_move (w : Walker) (hw : WalkerInv w) (dx dy : ℚ) :
    WalkerInv (w.move dx dy) := by
  obtain ⟨h1, h2⟩ := hw
  constructor
  · simp [Walker.move, h1]
  · simp [Walker.move]

/-- Claim C2: for every walker of any of the four kinds, from construction
and after any sequence of committed moves via `Walker.move`, the path length
equals the step count plus 1 and the position equals the last path entry. -/
theorem c2_walker_invariant (t : ℤ) (wts : List ℤ) (w0 : Walker)
    (h : walkerInit t wts = .ok w0) (moves : List (ℚ × ℚ)) :
    WalkerInv (moves.foldl (fun w m => w.move m.1 m.2) w0) := by
  have h0 : WalkerInv w0 := by
    unfold walkerInit at h
    split at h
    · cases h; exact ⟨by simp, by simp⟩
    · cases h
  clear h
  induction moves generalizing w0 with
  | nil => exact h0
  | cons m rest ih => exact ih _ (walkerInv_move _ h0 m.1 m.2)

/-- Witness for C2: a type-3 walker after two concrete committed moves. -/
theorem c2_witness :
    WalkerInv ([((1 : ℚ), (0 : ℚ)), (0, 1)].foldl (fun w m => w.move m.1 m.2)
      { x := 0, y := 0, steps := 0, path := [(0, 0)],
        weights := [1, 1, 1, 1, 1], walker_type := 3 }) :=
  c2_walker_invariant 3 [1, 1, 1, 1, 1] _ rfl _

/-- Claim C10 counterexample: a walker with a malformed weight count (2
instead of 5) is constructed without error, so construction does not raise
exactly on (invalid kind OR malformed weight count) as the claim states. -/
theorem c10_counterexample :
    walkerInit 4 [1, 1] =
      .ok { x := 0, y := 0, steps := 0, path := [(0, 0)],
            weights := [1, 1], walker_type := 4 }
    ∧ ([(1 : ℤ), 1]).length ≠ 5 := ⟨rfl, by decide⟩

/-- Claim C10 (amended): construction raises a configuration error exactly
when the walker kind is invalid (the weight count is never validated at
construction), and construction with a valid kind yields position (0,0),
step count 0 and path [(0,0)]. -/
theorem c10_amended (t : ℤ) (wts : List ℤ) :
    ((∃ w0, walkerInit t wts = .ok w0) ↔ t ∈ acceptableWalkerTypes)
    ∧ ∀ w0, walkerInit t wts = .ok w0 →
        w0.x = 0 ∧ w0.y = 0 ∧ w0.steps = 0 ∧ w0.path = [(0, 0)] := by
  unfold walkerInit
  split
  next ht => exact ⟨by simp [ht], fun w0 hw => by cases hw; exact ⟨rfl, rfl, rfl, rfl⟩⟩
  next ht => exact ⟨by simp [ht], fun w0 hw => by cases hw⟩

/-- Witness for C10 (amended): the theorem applied at kind 3. -/
theorem c10_witness :
    ((∃ w0, walkerInit 3 [1, 1, 1, 1, 1] = .ok w0) ↔ (3 : ℤ) ∈ acceptableWalkerTypes)
    ∧ ∀ w0, walkerInit 3 [1, 1, 1, 1, 1] = .ok w0 →
        w0.x = 0 ∧ w0.y = 0 ∧ w0.steps = 0 ∧ w0.path = [(0, 0)] :=
  c10_amended 3 [1, 1, 1, 1, 1]

/-- The accumulation block never touches the walker, the statistics list or
the unsuccessful-move counter. -/
theorem accumPhase_frame {dist : ℚ × ℚ → ℚ} {nSteps step : ℕ} {prev : ℚ × ℚ}
    {s u : RunState} (h : accumPhase dist nSteps step prev s = some u) :
    u.walker = s.walker ∧ u.stats = s.stats ∧ u.unsuccessful = s.unsuccessful := by
  simp only [accumPhase] at h
  split at h
  · cases h; exact ⟨rfl, rfl, rfl⟩
  · split at h
    · cases h
    · split at h <;> split at h <;> split at h <;>
        (cases h; exact ⟨rfl, rfl, rfl⟩)

/-- `appendRecord` only appends to the statistics list. -/
theorem appendRecord_frame (s : RunState) (step : ℕ) :
    (appendRecord s step).walker = s.walker
    ∧ (appendRecord s step).distO = s.distO
    ∧ (appendRecord s step).distX = s.distX
    ∧ (appendRecord s step).distY = s.distY
    ∧ (appendRecord s step).unsuccessful = s.unsuccessful := by
  exact ⟨rfl, rfl, rfl, rfl, rfl⟩

/-- The statistics phase never changes the walker. -/
theorem statsPhase_walker {dist : ℚ × ℚ → ℚ} {nSteps step : ℕ} {prev : ℚ × ℚ}
    {s t : RunState} (h : statsPhase dist nSteps step prev s = some t) :
    t.walker = s.walker := by
  unfold statsPhase at h
  obtain ⟨u, hu, ht⟩ := Option.map_eq_some'.mp h
  subst ht
  exact (accumPhase_frame hu).1

/-- The statistics phase never changes the unsuccessful-move counter. -/
theorem statsPhase_unsuccessful {dist : ℚ × ℚ → ℚ} {nSteps step : ℕ}
    {prev : ℚ × ℚ} {s t : RunState}
    (h : statsPhase dist nSteps step prev s = some t) :
    t.unsuccessful = s.unsuccessful := by
  unfold statsPhase at h
  obtain ⟨u, hu, ht⟩ := Option.map_eq_some'.mp h
  subst ht
  exact (accumPhase_frame hu).2.2

/-- Claim C3: whenever check_intersection resolves the proposed move to an
obstacle, the loop iteration leaves the walker (position, step count, path)
unchanged and increments the run's unsuccessful-move counter by exactly 1. -/
theorem c3_obstacle_rejected (dist : ℚ × ℚ → ℚ) (pl : Plane) (nSteps step : ℕ)
    (inp : StepInput) (s : RunState) (o : Obstacle)
    (h : checkIntersection pl (s.walker.x, s.walker.y) inp.move
           = some (.obstacle o)) :
    ∃ s', simStep dist pl nSteps step inp s = some s'
      ∧ s'.walker = s.walker
      ∧ s'.unsuccessful = s.unsuccessful + 1 := by
  refine ⟨appendRecord { s with unsuccessful := s.unsuccessful + 1 } step,
    ?_, rfl, rfl⟩
  unfold simStep resolveMove
  rw [h]
  show statsPhase dist nSteps step (s.walker.x, s.walker.y)
      { s with unsuccessful := s.unsuccessful + 1 } = _
  unfold statsPhase accumPhase
  rw [if_pos rfl]
  rfl

/-- Claim C4: whenever check_intersection resolves the proposed move to a
portal, the walker is placed at exactly the portal's destination via
set_position; set_position changes only the coordinates (step counter, path,
walker kind and weights unchanged), and the destination is the walker's
position of record in the resulting loop state. -/
theorem c4_portal_teleport (dist : ℚ × ℚ → ℚ) (pl : Plane) (nSteps step : ℕ)
    (inp : StepInput) (s : RunState) (p : Portal)
    (h : checkIntersection pl (s.walker.x, s.walker.y) inp.move
           = some (.portal p)) :
    resolveMove pl s.walker inp.move
      = some (s.walker.set_position p.destination.1 p.destination.2, 0)
    ∧ (∀ (w : Walker) (a b : ℚ),
        (w.set_position a b).x = a ∧ (w.set_position a b).y = b
        ∧ (w.set_position a b).steps = w.steps
        ∧ (w.set_position a b).path = w.path
        ∧ (w.set_position a b).walker_type = w.walker_type
        ∧ (w.set_position a b).weights = w.weights)
    ∧ ∀ s', simStep dist pl nSteps step inp s = some s' →
        s'.walker = s.walker.set_position p.destination.1 p.destination.2 := by
  refine ⟨?_, fun w a b => ⟨rfl, rfl, rfl, rfl, rfl, rfl⟩, ?_⟩
  · unfold resolveMove
    rw [h]
  · intro s' hs
    unfold simStep resolveMove at hs
    rw [h] at hs
    exact statsPhase_walker hs

/-- With no obstacles and no portals configured, check_intersection always
returns the proposed position unchanged. -/
theorem checkIntersection_empty {pl : Plane} (cur nxt : ℚ × ℚ)
    (hobs : pl.obstacles = []) (hport : pl.portals = []) :
    checkIntersection pl cur nxt = some (.free nxt) := by
  unfold checkIntersection
  rw [hobs, hport]
  rfl

/-- With no obstacles and no portals, has_possible_moves returns True (the
very first fixed probe already resolves to a non-obstacle outcome). -/
theorem hasPossibleMoves_empty {pl : Plane} (w : Walker)
    (probes : List (ℚ × ℚ)) (hobs : pl.obstacles = []) (hport : pl.portals = []) :
    hasPossibleMoves w pl probes = some true := by
  unfold hasPossibleMoves fixedMoves probeLoop
  rw [checkIntersection_empty _ _ hobs hport]
  rfl

/-- A list of length at least two has a penultimate entry. -/
theorem penultimate_isSome {l : List (ℚ × ℚ)} (h : 2 ≤ l.length) :
    ∃ p, penultimate l = some p := by
  have hlen : 2 ≤ l.reverse.length := by rwa [List.length_reverse]
  unfold penultimate
  rcases hr : l.reverse with _ | ⟨a, _ | ⟨b, rest⟩⟩
  · rw [hr] at hlen
    simp at hlen
  · rw [hr] at hlen
    simp at hlen
  · exact ⟨b, rfl⟩

/-- The crossing test evaluates without IndexError on a path with at least
two entries. -/
theorem crossedY_isSome {prev pos : ℚ × ℚ} {l : List (ℚ × ℚ)}
    (h : 2 ≤ l.length) : ∃ c, crossedY prev pos l = some c := by
  unfold crossedY
  split
  · exact ⟨true, rfl⟩
  · split
    · obtain ⟨p2, hp2⟩ := penultimate_isSome h
      rw [hp2]
      exact ⟨_, rfl⟩
    · exact ⟨false, rfl⟩

/-- The accumulation block succeeds when the walker's path has at least two
entries (so `path[-2]` cannot raise). -/
theorem accumPhase_isSome (dist : ℚ × ℚ → ℚ) (nSteps step : ℕ) (prev : ℚ × ℚ)
    (s : RunState) (h : 2 ≤ s.walker.path.length) :
    ∃ u, accumPhase dist nSteps step prev s = some u := by
  simp only [accumPhase]
  split
  · exact ⟨s, rfl⟩
  · obtain ⟨c, hc⟩ :=
      @crossedY_isSome prev (s.walker.x, s.walker.y) s.walker.path h
    simp only [hc]
    by_cases hn : nSteps = step + 1
    · exact ⟨_, by rw [if_pos hn]⟩
    · exact ⟨_, by rw [if_neg hn]⟩

/-- The statistics phase appends exactly one record, keyed by the 1-based
step index, whose three averages are the (post-accumulation) cumulative sums
divided by that index. -/
theorem statsPhase_stats {dist : ℚ × ℚ → ℚ} {nSteps step : ℕ} {prev : ℚ × ℚ}
    {s t : RunState} (h : statsPhase dist nSteps step prev s = some t) :
    t.stats = s.stats ++ [(step + 1,
      (t.distX / (step + 1), t.distY / (step + 1), t.distO / (step + 1)))] := by
  unfold statsPhase at h
  obtain ⟨u, hu, ht⟩ := Option.map_eq_some'.mp h
  subst ht
  have hst := (accumPhase_frame hu).2.1
  show (appendRecord u step).stats = _
  unfold appendRecord
  rw [hst]

/-- The statistics phase succeeds on a path with at least two entries and
appends exactly one record, leaving the walker unchanged. -/
theorem statsPhase_isSome (dist : ℚ × ℚ → ℚ) (nSteps step : ℕ) (prev : ℚ × ℚ)
    (s : RunState) (h : 2 ≤ s.walker.path.length) :
    ∃ t, statsPhase dist nSteps step prev s = some t
      ∧ t.stats.length = s.stats.length + 1 ∧ t.walker = s.walker := by
  obtain ⟨u, hu⟩ := accumPhase_isSome dist nSteps step prev s h
  refine ⟨appendRecord u step, ?_, ?_, ?_⟩
  · unfold statsPhase
    rw [hu]
    rfl
  · have hst := (accumPhase_frame hu).2.1
    simp [appendRecord, hst]
  · exact (accumPhase_frame hu).1

/-- One loop iteration on a plane with no obstacles and no portals: the move
commits, the iteration succeeds, and exactly one statistics record is
appended. -/
theorem simStep_empty {pl : Plane} (dist : ℚ × ℚ → ℚ) (nSteps step : ℕ)
    (inp : StepInput) (s : RunState)
    (hobs : pl.obstacles = []) (hport : pl.portals = [])
    (hpath : s.walker.path ≠ []) :
    ∃ s', simStep dist pl nSteps step inp s = some s'
      ∧ s'.stats.length = s.stats.length + 1
      ∧ s'.walker.path ≠ [] := by
  have h2 : 2 ≤ (s.walker.move inp.move.1 inp.move.2).path.length := by
    have h1 : 0 < s.walker.path.length := List.length_pos.mpr hpath
    simp only [Walker.move, List.length_append, List.length_cons,
      List.length_nil]
    omega
  obtain ⟨t, ht, hlen, hwalk⟩ := statsPhase_isSome dist nSteps step
    (s.walker.x, s.walker.y)
    { s with walker := s.walker.move inp.move.1 inp.move.2,
             unsuccessful := s.unsuccessful + 0 } h2
  refine ⟨t, ?_, hlen, ?_⟩
  · unfold simStep resolveMove
    rw [checkIntersection_empty _ _ hobs hport]
    exact ht
  · rw [hwalk]
    simp [Walker.move]

/-- On a plane with no obstacles and no portals a run never terminates
early and appends one record per loop iteration. -/
theorem runSim_empty {pl : Plane} (dist : ℚ × ℚ → ℚ) (nSteps : ℕ)
    (hobs : pl.obstacles = []) (hport : pl.portals = [])
    (inputs : List StepInput) :
    ∀ (step : ℕ) (s : RunState), s.walker.path ≠ [] →
      ∃ s', runSim dist pl nSteps inputs step s = some s'
        ∧ s'.stats.length = s.stats.length + inputs.length := by
  induction inputs with
  | nil => exact fun step s _ => ⟨s, rfl, by simp⟩
  | cons inp rest ih =>
    intro step s hpath
    obtain ⟨s1, hs1, hlen, hp1⟩ :=
      simStep_empty dist nSteps step inp s hobs hport hpath
    obtain ⟨s', hs', hlen'⟩ := ih (step + 1) s1 hp1
    refine ⟨s', ?_, ?_⟩
    · unfold runSim
      simp only [hasPossibleMoves_empty _ _ hobs hport, hs1, hs']
    · rw [hlen', hlen]
      simp only [List.length_cons]
      omega

/-- The walker produced by a successful construction starts at the origin
with an empty step count and the path [(0,0)]. -/
theorem walkerInit_ok_fields {t : ℤ} {wts : List ℤ} {w0 : Walker}
    (h : walkerInit t wts = .ok w0) :
    w0.path = [(0, 0)] ∧ w0.x = 0 ∧ w0.y = 0 ∧ w0.steps = 0 := by
  unfold walkerInit at h
  split at h
  · cases h
    exact ⟨rfl, rfl, rfl, rfl⟩
  · cases h

/-- Claim C5: every executed loop iteration appends exactly one per-step
statistics record, keyed by the 1-based step index, whose three averages
are the run's cumulative sums so far divided by that index; and a discrete
walker run with no obstacles or portals for exactly 5 steps produces
exactly 5 records. -/
theorem c5_per_step_records :
    (∀ (dist : ℚ × ℚ → ℚ) (pl : Plane) (nSteps step : ℕ) (inp : StepInput)
        (s s' : RunState),
        simStep dist pl nSteps step inp s = some s' →
        s'.stats = s.stats ++ [(step + 1,
          (s'.distX / (step + 1), s'.distY / (step + 1),
           s'.distO / (step + 1)))])
    ∧ (∀ (dist : ℚ × ℚ → ℚ) (pl : Plane) (nSteps : ℕ)
        (inputs : List StepInput) (wts : List ℤ) (w0 : Walker),
        pl.obstacles = [] → pl.portals = [] → inputs.length = 5 →
        walkerInit DISCRETE_WALKER wts = .ok w0 →
        ∃ s', runSim dist pl nSteps inputs 0 (initRun w0) = some s'
          ∧ s'.stats.length = 5) := by
  constructor
  · intro dist pl nSteps step inp s s' h
    unfold simStep at h
    rcases hr : resolveMove pl s.walker inp.move with _ | ⟨w', u⟩
    · rw [hr] at h
      cases h
    · rw [hr] at h
      exact @statsPhase_stats dist nSteps step (s.walker.x, s.walker.y)
        { s with walker := w', unsuccessful := s.unsuccessful + u } s' h
  · intro dist pl nSteps inputs wts w0 hobs hport hlen hw
    have hpath : (initRun w0).walker.path ≠ [] := by
      have hp := (walkerInit_ok_fields hw).1
      simp [initRun, hp]
    obtain ⟨s', hs', hl⟩ :=
      runSim_empty dist nSteps hobs hport inputs 0 (initRun w0) hpath
    refine ⟨s', hs', ?_⟩
    rw [hl, hlen]
    rfl

/-- Witness for C5: a concrete 5-step discrete-walker run on an empty plane
produces exactly 5 statistics records. -/
theorem c5_witness :
    ∃ s', runSim (fun _ => 0) ⟨[], [], []⟩ 3
        [⟨[], (1, 0)⟩, ⟨[], (0, 1)⟩, ⟨[], (-1, 0)⟩, ⟨[], (0, -1)⟩, ⟨[], (1, 1)⟩]
        0 (initRun { x := 0, y := 0, steps := 0, path := [(0, 0)],
                     weights := [1, 1, 1, 1, 1], walker_type := 3 }) = some s'
      ∧ s'.stats.length = 5 :=
  c5_per_step_records.2 (fun _ => 0) ⟨[], [], []⟩ 3 _ [1, 1, 1, 1, 1] _
    rfl rfl rfl rfl

/-- How the accumulation block updates the cross-run totals: they receive
this run's cumulative sums exactly when the position changed at this step
AND the 1-based step index equals the n_steps cutoff; otherwise they are
untouched. -/
theorem accumPhase_totals {dist : ℚ × ℚ → ℚ} {nSteps step : ℕ} {prev : ℚ × ℚ}
    {s u : RunState} (h : accumPhase dist nSteps step prev s = some u) :
    (((s.walker.x, s.walker.y) ≠ prev ∧ nSteps = step + 1) →
        u.totO = s.totO + u.distO ∧ u.totX = s.totX + u.distX
          ∧ u.totY = s.totY + u.distY)
    ∧ (((s.walker.x, s.walker.y) = prev ∨ nSteps ≠ step + 1) →
        u.totO = s.totO ∧ u.totX = s.totX ∧ u.totY = s.totY) := by
  simp only [accumPhase] at h
  split at h
  next hp =>
    cases h
    exact ⟨fun hc => absurd hp hc.1, fun _ => ⟨rfl, rfl, rfl⟩⟩
  next hp =>
    split at h
    · cases h
    next c hc =>
      split at h
      next hn =>
        cases h
        refine ⟨fun _ => ?_, fun hcon => ?_⟩
        · split <;> split <;> exact ⟨rfl, rfl, rfl⟩
        · rcases hcon with hcon | hcon
          · exact absurd hcon hp
          · exact absurd hn hcon
      next hn =>
        cases h
        refine ⟨fun hc => absurd hc.2 hn, fun _ => ?_⟩
        split <;> split <;> exact ⟨rfl, rfl, rfl⟩

/-- Claim C6 (amended): the run's cumulative sums are folded into the
cross-run totals exactly when the loop's 1-based step index equals the
n_steps cutoff AND the walker's position changed at that step; in
particular a step at the cutoff whose move was rejected (or that left the
position unchanged) folds nothing. -/
theorem c6_amended (dist : ℚ × ℚ → ℚ) (pl : Plane) (nSteps step : ℕ)
    (inp : StepInput) (s s' : RunState)
    (h : simStep dist pl nSteps step inp s = some s') :
    (((s'.walker.x, s'.walker.y) ≠ (s.walker.x, s.walker.y)
        ∧ nSteps = step + 1) →
        s'.totO = s.totO + s'.distO ∧ s'.totX = s.totX + s'.distX
          ∧ s'.totY = s.totY + s'.distY)
    ∧ (((s'.walker.x, s'.walker.y) = (s.walker.x, s.walker.y)
        ∨ nSteps ≠ step + 1) →
        s'.totO = s.totO ∧ s'.totX = s.totX ∧ s'.totY = s.totY) := by
  unfold simStep at h
  rcases hr : resolveMove pl s.walker inp.move with _ | ⟨w', u⟩
  · rw [hr] at h
    cases h
  · rw [hr] at h
    have h' : statsPhase dist nSteps step (s.walker.x, s.walker.y)
        { s with walker := w', unsuccessful := s.unsuccessful + u }
        = some s' := h
    unfold statsPhase at h'
    obtain ⟨t, ht, hs'⟩ := Option.map_eq_some'.mp h'
    subst hs'
    have hw : t.walker = w' := (accumPhase_frame ht).1
    have htot := accumPhase_totals ht
    simp only [appendRecord]
    rw [hw]
    exact htot

/-- Claim C6 counterexample: a 2-step run with n_steps = 2 whose second
(cutoff) step is rejected by an obstacle.  The loop's step index does reach
the cutoff (2 records, 1 unsuccessful move), the run's cumulative
distance-from-y-axis sum is 1, yet the cross-run total stays 0: nothing was
folded, against the claim's "in every run, when the step index equals
n_steps the sums are folded".  (The fold is guarded by the
position-changed test in the source.)  The distance parameter is
irrelevant here: the diverging sums are the exact rational |x| and |y|
sums, and the exit-radius branch compares equally (0 > 10 and
sqrt-distance > 10 are both false throughout this run). -/
theorem c6_counterexample :
    (runSim (fun _ => 0)
        { walkers := [],
          obstacles := [{ start := (-1, -(1 : ℚ)/2), endp := (1, -(1 : ℚ)/2) }],
          portals := [] } 2
        [{ probes := [], move := (0, 1) }, { probes := [], move := (0, -1) }] 0
        (initRun { x := 0, y := 0, steps := 0, path := [(0, 0)],
                   weights := [1, 1, 1, 1, 1], walker_type := 3 })).map
      (fun s => (s.stats.length, s.unsuccessful, s.distX, s.totX))
      = some (2, 1, 1, 0) := by
  norm_num [runSim, simStep, statsPhase, accumPhase, appendRecord, resolveMove,
    crossedY, penultimate, hasPossibleMoves, probeLoop, fixedMoves, addPt,
    nonObstacle, initRun, Walker.move, Walker.set_position, checkIntersection,
    scanObstacles, scanPortals, segInter, vsub, cross2, dot2, onSegment, sqDist,
    hitRes, Prod.mk.injEq, -Prod.mk_zero_zero, Prod.ext_iff]

/-- Witness for C6 (amended): the theorem applied to a concrete free step
taken away from the cutoff (n_steps = 5, step index 1), where all three
cross-run totals stay 0. -/
theorem c6_witness :
    ((((1 : ℚ), (0 : ℚ)) ≠ ((0 : ℚ), (0 : ℚ)) ∧ (5 : ℕ) = 0 + 1) →
        (0 : ℚ) = 0 + 0 ∧ (0 : ℚ) = 0 + 0 ∧ (0 : ℚ) = 0 + 1)
    ∧ ((((1 : ℚ), (0 : ℚ)) = ((0 : ℚ), (0 : ℚ)) ∨ (5 : ℕ) ≠ 0 + 1) →
        (0 : ℚ) = 0 ∧ (0 : ℚ) = 0 ∧ (0 : ℚ) = 0) :=
  c6_amended (fun _ => 0) { walkers := [], obstacles := [], portals := [] } 5 0
    { probes := [], move := (1, 0) }
    (initRun { x := 0, y := 0, steps := 0, path := [(0, 0)],
               weights := [1, 1, 1, 1, 1], walker_type := 3 })
    { walker := { x := 1, y := 0, steps := 1, path := [(0, 0), (1, 0)],
                  weights := [1, 1, 1, 1, 1], walker_type := 3 },
      stats := [(1, (0, 1, 0))], distO := 0, distX := 0, distY := 1,
      yCross := 0, stepsToExit := 0, exitRecorded := false, unsuccessful := 0,
      totO := 0, totX := 0, totY := 0 }
    (by norm_num [simStep, statsPhase, accumPhase, appendRecord, resolveMove,
      crossedY, penultimate, initRun, Walker.move, Walker.set_position,
      checkIntersection, scanObstacles, scanPortals, segInter, vsub, cross2,
      dot2, onSegment, sqDist, hitRes, Prod.mk.injEq, -Prod.mk_zero_zero,
      Prod.ext_iff])

/-- How the accumulation block updates the exit-radius fields: once
recorded they are never overwritten; from an unrecorded state they become
recorded exactly when the position changed and the walker's distance
exceeds 10, capturing the walker's current step count. -/
theorem accumPhase_exit {dist : ℚ × ℚ → ℚ} {nSteps step : ℕ} {prev : ℚ × ℚ}
    {s u : RunState} (h : accumPhase dist nSteps step prev s = some u) :
    (s.exitRecorded = true →
        u.exitRecorded = true ∧ u.stepsToExit = s.stepsToExit)
    ∧ (s.exitRecorded = false →
        ((u.exitRecorded = true ↔
           ((s.walker.x, s.walker.y) ≠ prev
             ∧ dist (s.walker.x, s.walker.y) > 10))
         ∧ (u.exitRecorded = true → u.stepsToExit = s.walker.steps)
         ∧ (u.exitRecorded = false → u.stepsToExit = s.stepsToExit))) := by
  simp only [accumPhase] at h
  split at h
  next hp =>
    cases h
    refine ⟨fun he => ⟨he, rfl⟩, fun he => ⟨?_, fun hc => ?_, fun _ => rfl⟩⟩
    · rw [he]
      simp [hp]
    · rw [he] at hc
      cases hc
  next hp =>
    split at h
    · cases h
    next c hc =>
      split at h <;> split at h <;> split at h <;>
        (cases h
         constructor
         · intro he
           refine ⟨?_, ?_⟩ <;> simp_all
         · intro he
           refine ⟨?_, ?_, ?_⟩ <;> simp_all)

/-- Step-level exit-radius behaviour of one loop iteration. -/
theorem simStep_exit (dist : ℚ × ℚ → ℚ) (pl : Plane) (nSteps step : ℕ)
    (inp : StepInput) (s s' : RunState)
    (h : simStep dist pl nSteps step inp s = some s') :
    (s.exitRecorded = true →
        s'.exitRecorded = true ∧ s'.stepsToExit = s.stepsToExit)
    ∧ (s.exitRecorded = false →
        ((s'.exitRecorded = true ↔
           ((s'.walker.x, s'.walker.y) ≠ (s.walker.x, s.walker.y)
             ∧ dist (s'.walker.x, s'.walker.y) > 10))
         ∧ (s'.exitRecorded = true → s'.stepsToExit = s'.walker.steps)
         ∧ (s'.exitRecorded = false → s'.stepsToExit = s.stepsToExit))) := by
  unfold simStep at h
  rcases hr : resolveMove pl s.walker inp.move with _ | ⟨w', u⟩
  · rw [hr] at h
    cases h
  · rw [hr] at h
    have h' : statsPhase dist nSteps step (s.walker.x, s.walker.y)
        { s with walker := w', unsuccessful := s.unsuccessful + u }
        = some s' := h
    unfold statsPhase at h'
    obtain ⟨t, ht, hs'⟩ := Option.map_eq_some'.mp h'
    subst hs'
    have hw : t.walker = w' := (accumPhase_frame ht).1
    have hEx := accumPhase_exit ht
    simp only [appendRecord]
    rw [hw]
    exact hEx

/-- Run-level zero default: as long as the exit radius was never crossed,
the steps-to-exit metric stays at its initial value 0. -/
theorem runSim_exit_zero (dist : ℚ × ℚ → ℚ) (pl : Plane) (nSteps : ℕ)
    (inputs : List StepInput) :
    ∀ (step : ℕ) (s : RunState), (s.exitRecorded = false → s.stepsToExit = 0) →
      ∀ s', runSim dist pl nSteps inputs step s = some s' →
        s'.exitRecorded = false → s'.stepsToExit = 0 := by
  induction inputs with
  | nil =>
    intro step s hinv s' h he
    cases h
    exact hinv he
  | cons inp rest ih =>
    intro step s hinv s' h he
    unfold runSim at h
    rcases hm : hasPossibleMoves s.walker pl inp.probes with _ | b
    · rw [hm] at h
      cases h
    · rw [hm] at h
      cases b
      · have h' : some s = some s' := h
        cases h'
        exact hinv he
      · have h' : (match simStep dist pl nSteps step inp s with
          | none => none
          | some s1 => runSim dist pl nSteps rest (step + 1) s1) = some s' := h
        rcases hs : simStep dist pl nSteps step inp s with _ | s1
        · rw [hs] at h'
          cases h'
        · rw [hs] at h'
          have h'' : runSim dist pl nSteps rest (step + 1) s1 = some s' := h'
          have hstep := simStep_exit dist pl nSteps step inp s s1 hs
          refine ih (step + 1) s1 ?_ s' h'' he
          intro he1
          rcases hb : s.exitRecorded with _ | _
          · have h2 := (hstep.2 hb).2.2 he1
            rw [h2]
            exact hinv hb
          · have h2 := (hstep.1 hb).1
            rw [he1] at h2
            cases h2

/-- Claim C7: within a run, the exit-radius step-count metric is recorded
at the first position-changing step at which the walker's distance from
the origin exceeds 10 and is never overwritten later in the run; if the
threshold is never crossed the metric keeps its zero default.  (With the
real distance — sqrt of a sum of squares, 0 at the origin start — the
first step at which the distance exceeds 10 necessarily changed the
position, so the position-changed conjunct below matches the claim's
"first step at which the distance exceeds 10".) -/
theorem c7_exit_radius :
    (∀ (dist : ℚ × ℚ → ℚ) (pl : Plane) (nSteps step : ℕ) (inp : StepInput)
        (s s' : RunState), simStep dist pl nSteps step inp s = some s' →
        (s.exitRecorded = true →
            s'.exitRecorded = true ∧ s'.stepsToExit = s.stepsToExit)
        ∧ (s.exitRecorded = false →
            ((s'.exitRecorded = true ↔
               ((s'.walker.x, s'.walker.y) ≠ (s.walker.x, s.walker.y)
                 ∧ dist (s'.walker.x, s'.walker.y) > 10))
             ∧ (s'.exitRecorded = true → s'.stepsToExit = s'.walker.steps)
             ∧ (s'.exitRecorded = false → s'.stepsToExit = s.stepsToExit))))
    ∧ (∀ (dist : ℚ × ℚ → ℚ) (pl : Plane) (nSteps : ℕ)
        (inputs : List StepInput) (w : Walker) (s' : RunState),
        runSim dist pl nSteps inputs 0 (initRun w) = some s' →
        s'.exitRecorded = false → s'.stepsToExit = 0) :=
  ⟨simStep_exit,
   fun dist pl nSteps inputs w s' h he =>
     runSim_exit_zero dist pl nSteps inputs 0 (initRun w) (fun _ => rfl) s' h he⟩

/-- What the crossing test returns when it does not raise: true exactly
when `prev.x * cur.x < 0`, or `prev.x * cur.x == 0` with
`prev.x * path[-2].x != 0`. -/
theorem crossedY_spec {prev pos : ℚ × ℚ} {l : List (ℚ × ℚ)} {c : Bool}
    (h : crossedY prev pos l = some c) :
    c = true ↔
      (prev.1 * pos.1 < 0 ∨
       (prev.1 * pos.1 = 0
         ∧ ∃ p2, penultimate l = some p2 ∧ prev.1 * p2.1 ≠ 0)) := by
  unfold crossedY at h
  split at h
  next hlt =>
    cases h
    simp [hlt]
  next hlt =>
    split at h
    next heq =>
      rcases hp : penultimate l with _ | p2
      · rw [hp] at h
        cases h
      · rw [hp] at h
        cases h
        constructor
        · intro hd
          exact Or.inr ⟨heq, p2, rfl, of_decide_eq_true hd⟩
        · rintro (hlt' | ⟨_, p2', hp2', hne⟩)
          · exact absurd hlt' hlt
          · injection hp2' with hpp
            subst hpp
            exact decide_eq_true hne
    next heq =>
      cases h
      simp [hlt, heq]

/-- How the accumulation block updates the y-axis crossing counter. -/
theorem accumPhase_cross {dist : ℚ × ℚ → ℚ} {nSteps step : ℕ} {prev : ℚ × ℚ}
    {s u : RunState} (h : accumPhase dist nSteps step prev s = some u) :
    ((s.walker.x, s.walker.y) ≠ prev →
        (u.yCross = s.yCross + 1 ↔
          (prev.1 * s.walker.x < 0 ∨
           (prev.1 * s.walker.x = 0
             ∧ ∃ p2, penultimate s.walker.path = some p2
                 ∧ prev.1 * p2.1 ≠ 0))))
    ∧ ((s.walker.x, s.walker.y) = prev → u.yCross = s.yCross) := by
  simp only [accumPhase] at h
  split at h
  next hp =>
    cases h
    exact ⟨fun hne => absurd hp hne, fun _ => rfl⟩
  next hp =>
    split at h
    · cases h
    next c hc =>
      refine ⟨fun _ => ?_, fun heq => absurd heq hp⟩
      have hspec := crossedY_spec hc
      cases c with
      | false =>
        have hnr : ¬(prev.1 * s.walker.x < 0 ∨
            (prev.1 * s.walker.x = 0
              ∧ ∃ p2, penultimate s.walker.path = some p2
                  ∧ prev.1 * p2.1 ≠ 0)) := by
          intro hr
          exact absurd (hspec.mpr hr) (by simp)
        rw [if_neg (show ¬(false = true) by simp)] at h
        split at h <;> split at h <;>
          (cases h
           refine ⟨fun habs => absurd habs (by simp), fun hr => absurd hr hnr⟩)
      | true =>
        have hr := hspec.mp rfl
        rw [if_pos rfl] at h
        split at h <;> split at h <;>
          (cases h
           exact ⟨fun _ => hr, fun _ => rfl⟩)

/-- Claim C9 (amended): at a position-changing step the y-axis crossing
counter is incremented exactly when `prev.x * cur.x < 0`, or
`prev.x * cur.x = 0` while `prev.x * path[-2].x ≠ 0` on the walker's
post-resolution path (so in particular never when the previous x is
exactly 0); a step that leaves the position unchanged never increments
the counter. -/
theorem c9_amended (dist : ℚ × ℚ → ℚ) (pl : Plane) (nSteps step : ℕ)
    (inp : StepInput) (s s' : RunState)
    (h : simStep dist pl nSteps step inp s = some s') :
    ((s'.walker.x, s'.walker.y) ≠ (s.walker.x, s.walker.y) →
        (s'.yCross = s.yCross + 1 ↔
          (s.walker.x * s'.walker.x < 0 ∨
           (s.walker.x * s'.walker.x = 0
             ∧ ∃ p2, penultimate s'.walker.path = some p2
                 ∧ s.walker.x * p2.1 ≠ 0))))
    ∧ ((s'.walker.x, s'.walker.y) = (s.walker.x, s.walker.y) →
        s'.yCross = s.yCross) := by
  unfold simStep at h
  rcases hr : resolveMove pl s.walker inp.move with _ | ⟨w', u⟩
  · rw [hr] at h
    cases h
  · rw [hr] at h
    have h' : statsPhase dist nSteps step (s.walker.x, s.walker.y)
        { s with walker := w', unsuccessful := s.unsuccessful + u }
        = some s' := h
    unfold statsPhase at h'
    obtain ⟨t, ht, hs'⟩ := Option.map_eq_some'.mp h'
    subst hs'
    have hw : t.walker = w' := (accumPhase_frame ht).1
    have hcr := accumPhase_cross ht
    simp only [appendRecord]
    rw [hw]
    exact hcr

/-- Claim C9 counterexample: a committed move from (1,0) to (0,0).  The
spec's condition (sign of x flips, or previous x exactly on the axis with
the position two steps prior on the opposite side) is false here — no sign
flip, and the previous x is 1, not 0 — yet the code increments the
crossing counter (its second disjunct tests the product of the previous
and CURRENT x for zero, then `prev.x * path[-2].x != 0`). -/
theorem c9_counterexample :
    (simStep (fun _ => 0) { walkers := [], obstacles := [], portals := [] } 9 1
        { probes := [], move := (-1, 0) }
        { walker := { x := 1, y := 0, steps := 1, path := [(0, 0), (1, 0)],
                      weights := [1, 1, 1, 1, 1], walker_type := 3 },
          stats := [], distO := 0, distX := 0, distY := 0, yCross := 0,
          stepsToExit := 0, exitRecorded := false, unsuccessful := 0,
          totO := 0, totX := 0, totY := 0 }).map RunState.yCross = some 1
    ∧ ¬ specCrossedYAxis 1 0 0 := by
  constructor
  · norm_num [simStep, statsPhase, accumPhase, appendRecord, resolveMove,
      crossedY, penultimate, Walker.move, Walker.set_position,
      checkIntersection, scanObstacles, scanPortals, segInter, vsub, cross2,
      dot2, onSegment, sqDist, hitRes, Prod.mk.injEq, -Prod.mk_zero_zero,
      Prod.ext_iff]
  · norm_num [specCrossedYAxis]

/-- Witness for C9 (amended): the theorem applied to the concrete committed
move from (1,0) to (0,0), where the counter is incremented and the code's
condition holds through its second disjunct. -/
theorem c9_witness :
    ((((0 : ℚ), (0 : ℚ)) ≠ ((1 : ℚ), (0 : ℚ))) →
        ((1 : ℕ) = 0 + 1 ↔
          ((1 : ℚ) * 0 < 0 ∨
           ((1 : ℚ) * 0 = 0
             ∧ ∃ p2, penultimate [(0, 0), (1, 0), (0, 0)] = some p2
                 ∧ (1 : ℚ) * p2.1 ≠ 0))))
    ∧ ((((0 : ℚ), (0 : ℚ)) = ((1 : ℚ), (0 : ℚ))) → (1 : ℕ) = 0) :=
  c9_amended (fun _ => 0) { walkers := [], obstacles := [], portals := [] } 9 1
    { probes := [], move := (-1, 0) }
    { walker := { x := 1, y := 0, steps := 1, path := [(0, 0), (1, 0)],
                  weights := [1, 1, 1, 1, 1], walker_type := 3 },
      stats := [], distO := 0, distX := 0, distY := 0, yCross := 0,
      stepsToExit := 0, exitRecorded := false, unsuccessful := 0,
      totO := 0, totX := 0, totY := 0 }
    { walker := { x := 0, y := 0, steps := 2,
                  path := [(0, 0), (1, 0), (0, 0)],
                  weights := [1, 1, 1, 1, 1], walker_type := 3 },
      stats := [(2, (0, 0, 0))], distO := 0, distX := 0, distY := 0,
      yCross := 1, stepsToExit := 0, exitRecorded := false, unsuccessful := 0,
      totO := 0, totX := 0, totY := 0 }
    (by norm_num [simStep, statsPhase, accumPhase, appendRecord, resolveMove,
      crossedY, penultimate, Walker.move, Walker.set_position,
      checkIntersection, scanObstacles, scanPortals, segInter, vsub, cross2,
      dot2, onSegment, sqDist, hitRes, Prod.mk.injEq, -Prod.mk_zero_zero,
      Prod.ext_iff])

/-- A probing loop returns true exactly when some probed displacement
resolves (via check_intersection) to a non-obstacle outcome. -/
theorem probeLoop_true_iff (pl : Plane) (cur : ℚ × ℚ) :
    ∀ (l : List (ℚ × ℚ)) (b : Bool), probeLoop pl cur l = some b →
      (b = true ↔ ∃ m ∈ l, ∃ r,
        checkIntersection pl cur (addPt cur m) = some r
          ∧ nonObstacle r = true) := by
  intro l
  induction l with
  | nil =>
    intro b h
    have h' : some false = some b := h
    cases h'
    simp
  | cons m rest ih =>
    intro b h
    unfold probeLoop at h
    rcases hc : checkIntersection pl cur (addPt cur m) with _ | r
    · rw [hc] at h
      cases h
    · rw [hc] at h
      have h' : (if nonObstacle r = true then some true
          else probeLoop pl cur rest) = some b := h
      by_cases hr : nonObstacle r = true
      · rw [if_pos hr] at h'
        cases h'
        exact ⟨fun _ => ⟨m, List.mem_cons_self m rest, r, hc, hr⟩,
               fun _ => rfl⟩
      · rw [if_neg hr] at h'
        rw [ih b h']
        constructor
        · rintro ⟨m', hm', r', hc', hr'⟩
          exact ⟨m', List.mem_cons_of_mem _ hm', r', hc', hr'⟩
        · rintro ⟨m', hm', r', hc', hr'⟩
          rcases List.mem_cons.mp hm' with rfl | hm'
          · rw [hc] at hc'
            injection hc' with hrr
            subst hrr
            exact absurd hr' hr
          · exact ⟨m', hm', r', hc', hr'⟩

/-- Claim C8: has_possible_moves tests the four axis-aligned unit moves
plus the return-to-origin move via check_intersection and, for the two
continuous walker kinds (types 1 and 2), additionally probes 100 random
unit-circle directions (passed here as `probes`); it returns true iff some
probe resolves to a non-obstacle outcome (unobstructed or portal), hence
false only if every probe resolves to an obstacle. -/
theorem c8_has_possible_moves (w : Walker) (pl : Plane)
    (probes : List (ℚ × ℚ)) (b : Bool)
    (hcount : w.walker_type ∈ [(1 : ℤ), 2] → probes.length = 100)
    (h : hasPossibleMoves w pl probes = some b) :
    b = true ↔
      ((∃ m ∈ fixedMoves w, ∃ r,
          checkIntersection pl (w.x, w.y) (addPt (w.x, w.y) m) = some r
            ∧ nonObstacle r = true)
       ∨ (w.walker_type ∈ [(1 : ℤ), 2]
          ∧ ∃ m ∈ probes, ∃ r,
              checkIntersection pl (w.x, w.y) (addPt (w.x, w.y) m) = some r
                ∧ nonObstacle r = true)) := by
  unfold hasPossibleMoves at h
  rcases hf : probeLoop pl (w.x, w.y) (fixedMoves w) with _ | bf
  · rw [hf] at h
    cases h
  · rw [hf] at h
    have hfiff := probeLoop_true_iff pl (w.x, w.y) (fixedMoves w) bf hf
    cases bf
    · have h' : (if w.walker_type ∈ [(1 : ℤ), 2]
          then probeLoop pl (w.x, w.y) probes else some false) = some b := h
      have hnof : ¬ ∃ m ∈ fixedMoves w, ∃ r,
          checkIntersection pl (w.x, w.y) (addPt (w.x, w.y) m) = some r
            ∧ nonObstacle r = true := by
        intro hex
        exact Bool.false_ne_true (hfiff.mpr hex)
      by_cases ht : w.walker_type ∈ [(1 : ℤ), 2]
      · rw [if_pos ht] at h'
        rw [probeLoop_true_iff pl (w.x, w.y) probes b h']
        constructor
        · intro hp
          exact Or.inr ⟨ht, hp⟩
        · rintro (hex | ⟨_, hp⟩)
          · exact absurd hex hnof
          · exact hp
      · rw [if_neg ht] at h'
        cases h'
        constructor
        · intro habs
          exact (Bool.false_ne_true habs).elim
        · rintro (hex | ⟨hm, _⟩)
          · exact absurd hex hnof
          · exact absurd hm ht
    · have h' : some true = some b := h
      cases h'
      exact ⟨fun _ => Or.inl (hfiff.mp rfl), fun _ => rfl⟩

/-- Witness for C8: a type-1 walker at the origin on an empty plane with
100 probe directions; has_possible_moves returns true and the first fixed
probe is the non-obstacle outcome. -/
theorem c8_witness :
    true = true ↔
      ((∃ m ∈ fixedMoves ⟨0, 0, 0, [(0, 0)], [1, 1, 1, 1, 1], 1⟩, ∃ r,
          checkIntersection ⟨[], [], []⟩ (0, 0) (addPt (0, 0) m) = some r
            ∧ nonObstacle r = true)
       ∨ ((1 : ℤ) ∈ [(1 : ℤ), 2]
          ∧ ∃ m ∈ List.replicate 100 ((1 : ℚ), (0 : ℚ)), ∃ r,
              checkIntersection ⟨[], [], []⟩ (0, 0) (addPt (0, 0) m) = some r
                ∧ nonObstacle r = true)) :=
  c8_has_possible_moves ⟨0, 0, 0, [(0, 0)], [1, 1, 1, 1, 1], 1⟩ ⟨[], [], []⟩
    (List.replicate 100 ((1 : ℚ), (0 : ℚ))) true
    (fun _ => List.length_replicate 100 _) rfl

/-- Folding `selStep` from a non-empty accumulator is `runMin`. -/
theorem foldl_selStep (l : List (ℚ × Hit)) : ∀ (m : ℚ) (b : Hit),
    List.foldl selStep (some (m, b)) l = some (runMin m b l) := by
  induction l with
  | nil =>
    intro m b
    rfl
  | cons x xs ih =>
    intro m b
    rw [List.foldl_cons]
    unfold runMin
    have hsel : selStep (some (m, b)) x
        = if x.1 < m then some x else some (m, b) := rfl
    rw [hsel]
    by_cases hx : x.1 < m
    · rw [if_pos hx, if_pos hx]
      exact ih x.1 x.2
    · rw [if_neg hx, if_neg hx]
      exact ih m b

/-- `runMin m b xs` is the entry of `(m, b) :: xs` with minimal distance,
and every entry before it is strictly farther. -/
theorem runMin_firstMin (xs : List (ℚ × Hit)) : ∀ (m : ℚ) (b : Hit),
    FirstMin ((m, b) :: xs) (runMin m b xs) := by
  induction xs with
  | nil =>
    intro m b
    refine ⟨0, rfl, ?_, ?_⟩
    · intro y hy
      rcases List.mem_singleton.mp hy with rfl
      exact le_refl _
    · intro j hj y hy
      exact absurd hj (Nat.not_lt_zero j)
  | cons x rest ih =>
    intro m b
    unfold runMin
    by_cases hx : x.1 < m
    · rw [if_pos hx]
      obtain ⟨i, hi, hmin, hstrict⟩ := ih x.1 x.2
      have hrx : (runMin x.1 x.2 rest).1 ≤ x.1 :=
        hmin _ (List.mem_cons_self _ _)
      refine ⟨i + 1, ?_, ?_, ?_⟩
      · rw [List.getElem?_cons_succ]
        exact hi
      · intro y hy
        rcases List.mem_cons.mp hy with rfl | hy'
        · exact le_of_lt (lt_of_le_of_lt hrx hx)
        · exact hmin y hy'
      · intro j hj y hy
        rcases j with _ | k
        · rw [List.getElem?_cons_zero] at hy
          injection hy with hyy
          subst hyy
          exact lt_of_le_of_lt hrx hx
        · rw [List.getElem?_cons_succ] at hy
          exact hstrict k (Nat.lt_of_succ_lt_succ hj) y hy
    · rw [if_neg hx]
      obtain ⟨i, hi, hmin, hstrict⟩ := ih m b
      have hmx : m ≤ x.1 := le_of_not_lt hx
      have hrm : (runMin m b rest).1 ≤ m := hmin _ (List.mem_cons_self _ _)
      rcases i with _ | k
      · rw [List.getElem?_cons_zero] at hi
        refine ⟨0, ?_, ?_, ?_⟩
        · rw [List.getElem?_cons_zero]
          exact hi
        · intro y hy
          rcases List.mem_cons.mp hy with rfl | hy'
          · exact hrm
          · rcases List.mem_cons.mp hy' with rfl | hy''
            · exact le_trans hrm hmx
            · exact hmin y (List.mem_cons_of_mem _ hy'')
        · intro j hj y hy
          exact absurd hj (Nat.not_lt_zero j)
      · rw [List.getElem?_cons_succ] at hi
        have hstrict0 : (runMin m b rest).1 < m :=
          hstrict 0 (Nat.succ_pos k) (m, b) (by rw [List.getElem?_cons_zero])
        refine ⟨k + 2, ?_, ?_, ?_⟩
        · rw [List.getElem?_cons_succ, List.getElem?_cons_succ]
          exact hi
        · intro y hy
          rcases List.mem_cons.mp hy with rfl | hy'
          · exact le_of_lt hstrict0
          · rcases List.mem_cons.mp hy' with rfl | hy''
            · exact le_trans (le_of_lt hstrict0) hmx
            · exact hmin y (List.mem_cons_of_mem _ hy'')
        · intro j hj y hy
          rcases j with _ | j
          · rw [List.getElem?_cons_zero] at hy
            injection hy with hyy
            subst hyy
            exact hstrict0
          · rcases j with _ | j'
            · rw [List.getElem?_cons_succ, List.getElem?_cons_zero] at hy
              injection hy with hyy
              subst hyy
              exact lt_of_lt_of_le hstrict0 hmx
            · rw [List.getElem?_cons_succ, List.getElem?_cons_succ] at hy
              refine hstrict (j' + 1) (by omega) y ?_
              rw [List.getElem?_cons_succ]
              exact hy

/-- Folding `selStep` from the empty accumulator yields nothing on an empty
candidate list and the first minimum otherwise. -/
theorem foldl_selStep_none (l : List (ℚ × Hit)) :
    (l = [] ∧ List.foldl selStep none l = none)
    ∨ ∃ r, List.foldl selStep none l = some r ∧ FirstMin l r := by
  cases l with
  | nil => exact Or.inl ⟨rfl, rfl⟩
  | cons x xs =>
    right
    refine ⟨runMin x.1 x.2 xs, ?_, ?_⟩
    · rw [List.foldl_cons]
      have hsel : selStep none x = some (x.1, x.2) := rfl
      rw [hsel]
      exact foldl_selStep xs x.1 x.2
    · exact runMin_firstMin xs x.1 x.2

/-- An obstacle whose segment misses the path contributes no hit. -/
theorem obstacleHits_cons_empty {cur nxt : ℚ × ℚ} {o : Obstacle}
    {rest : List Obstacle} (h : segInter cur nxt o.start o.endp = .empty) :
    obstacleHits cur nxt (o :: rest) = obstacleHits cur nxt rest := by
  unfold obstacleHits
  rw [List.filterMap_cons]
  simp only [h]

/-- An obstacle met in a single point contributes its squared distance. -/
theorem obstacleHits_cons_point {cur nxt ip : ℚ × ℚ} {o : Obstacle}
    {rest : List Obstacle} (h : segInter cur nxt o.start o.endp = .point ip) :
    obstacleHits cur nxt (o :: rest)
      = (sqDist cur ip, Hit.obstacle o) :: obstacleHits cur nxt rest := by
  unfold obstacleHits
  rw [List.filterMap_cons]
  simp only [h]

/-- A portal whose segment misses the path contributes no hit. -/
theorem portalHits_cons_empty {cur nxt : ℚ × ℚ} {p : Portal}
    {rest : List Portal} (h : segInter cur nxt p.start p.endp = .empty) :
    portalHits cur nxt (p :: rest) = portalHits cur nxt rest := by
  unfold portalHits
  rw [List.filterMap_cons]
  simp only [h]

/-- A portal met in a single point contributes its squared distance. -/
theorem portalHits_cons_point {cur nxt ip : ℚ × ℚ} {p : Portal}
    {rest : List Portal} (h : segInter cur nxt p.start p.endp = .point ip) :
    portalHits cur nxt (p :: rest)
      = (sqDist cur ip, Hit.portal p) :: portalHits cur nxt rest := by
  unfold portalHits
  rw [List.filterMap_cons]
  simp only [h]

/-- The obstacle loop of check_intersection, run without any collinear
overlap, computes exactly the `selStep` fold over the obstacle hits. -/
theorem scanObstacles_eq (cur nxt : ℚ × ℚ) :
    ∀ (l : List Obstacle) (acc : Option (ℚ × Hit)),
      (∀ o ∈ l, segInter cur nxt o.start o.endp ≠ .overlap) →
      scanObstacles cur nxt l acc
        = some (List.foldl selStep acc (obstacleHits cur nxt l)) := by
  intro l
  induction l with
  | nil =>
    intro acc _
    rfl
  | cons o rest ih =>
    intro acc hno
    have hno' : ∀ o' ∈ rest, segInter cur nxt o'.start o'.endp ≠ .overlap :=
      fun o' ho' => hno o' (List.mem_cons_of_mem _ ho')
    rcases hseg : segInter cur nxt o.start o.endp with _ | ip | _
    · simp only [scanObstacles, hseg]
      rw [obstacleHits_cons_empty hseg]
      exact ih acc hno'
    · rw [obstacleHits_cons_point hseg, List.foldl_cons]
      rcases acc with _ | a
      · simp only [scanObstacles, hseg]
        exact ih _ hno'
      · simp only [scanObstacles, hseg]
        have hsel : selStep (some a) (sqDist cur ip, Hit.obstacle o)
            = if sqDist cur ip < a.1
              then some (sqDist cur ip, Hit.obstacle o) else some a := rfl
        rw [hsel]
        by_cases hlt : sqDist cur ip < a.1
        · rw [if_pos hlt, if_pos hlt]
          exact ih _ hno'
        · rw [if_neg hlt, if_neg hlt]
          exact ih _ hno'
    · exact absurd hseg (hno o (List.mem_cons_self _ _))

/-- The portal loop of check_intersection, run without any collinear
overlap, computes exactly the `selStep` fold over the portal hits. -/
theorem scanPortals_eq (cur nxt : ℚ × ℚ) :
    ∀ (l : List Portal) (acc : Option (ℚ × Hit)),
      (∀ p ∈ l, segInter cur nxt p.start p.endp ≠ .overlap) →
      scanPortals cur nxt l acc
        = some (List.foldl selStep acc (portalHits cur nxt l)) := by
  intro l
  induction l with
  | nil =>
    intro acc _
    rfl
  | cons p rest ih =>
    intro acc hno
    have hno' : ∀ p' ∈ rest, segInter cur nxt p'.start p'.endp ≠ .overlap :=
      fun p' hp' => hno p' (List.mem_cons_of_mem _ hp')
    rcases hseg : segInter cur nxt p.start p.endp with _ | ip | _
    · simp only [scanPortals, hseg]
      rw [portalHits_cons_empty hseg]
      exact ih acc hno'
    · rw [portalHits_cons_point hseg, List.foldl_cons]
      rcases acc with _ | a
      · simp only [scanPortals, hseg]
        exact ih _ hno'
      · simp only [scanPortals, hseg]
        have hsel : selStep (some a) (sqDist cur ip, Hit.portal p)
            = if sqDist cur ip < a.1
              then some (sqDist cur ip, Hit.portal p) else some a := rfl
        rw [hsel]
        by_cases hlt : sqDist cur ip < a.1
        · rw [if_pos hlt, if_pos hlt]
          exact ih _ hno'
        · rw [if_neg hlt, if_neg hlt]
          exact ih _ hno'
    · exact absurd hseg (hno p (List.mem_cons_self _ _))

/-- Claim C1 (amended): for every current and proposed position such that
no obstacle or portal segment meets the tested path segment in a
positive-length collinear overlap (on such inputs the source instead
raises AttributeError while reading `.x` of the LineString intersection —
see the counterexample), check_intersection returns the proposed position
unchanged when no obstacle and no portal segment intersects the path;
otherwise it returns the tagged intersecting object whose intersection
point is strictly closest to the current position, exact-distance ties
resolved to the first segment found in obstacle-then-portal insertion
order (`FirstMin`, stated on squared distances, which order exactly as the
Euclidean distances the source compares). -/
theorem c1_amended (pl : Plane) (cur nxt : ℚ × ℚ)
    (hov : NoOverlapAt pl cur nxt) :
    (checkIntersection pl cur nxt = some (.free nxt) ∧ allHits pl cur nxt = [])
    ∨ ∃ dh : ℚ × Hit, FirstMin (allHits pl cur nxt) dh
        ∧ checkIntersection pl cur nxt = some (hitRes dh.2) := by
  obtain ⟨ho, hp⟩ := hov
  have hobs := scanObstacles_eq cur nxt pl.obstacles none ho
  have hport := scanPortals_eq cur nxt pl.portals
      (List.foldl selStep none (obstacleHits cur nxt pl.obstacles)) hp
  have hfold : List.foldl selStep
      (List.foldl selStep none (obstacleHits cur nxt pl.obstacles))
      (portalHits cur nxt pl.portals)
      = List.foldl selStep none (allHits pl cur nxt) := by
    rw [allHits, List.foldl_append]
  have hci : ∀ z, List.foldl selStep none (allHits pl cur nxt) = z →
      checkIntersection pl cur nxt
        = (match z with
           | none => some (.free nxt)
           | some a => some (hitRes a.2)) := by
    intro z hz
    unfold checkIntersection
    rw [hobs]
    show (match scanPortals cur nxt pl.portals
        (List.foldl selStep none (obstacleHits cur nxt pl.obstacles)) with
      | none => none
      | some none => some (InterResult.free nxt)
      | some (some a) => some (hitRes a.2)) = _
    rw [hport, hfold, hz]
    rcases z with _ | a <;> rfl
  rcases foldl_selStep_none (allHits pl cur nxt) with ⟨hnil, hn⟩ | ⟨r, hr, hfm⟩
  · exact Or.inl ⟨hci none hn, hnil⟩
  · exact Or.inr ⟨r, hfm, hci (some r) hr⟩

/-- Claim C1 counterexample: an obstacle lying collinearly on the tested
path (segments [(0,0),(4,0)] and [(1,0),(2,0)] share a whole subsegment,
certified by the `.overlap` conjunct, so the obstacle does intersect the
path).  The claim promises an obstacle-tagged pair here, but the source
raises AttributeError reading `.x` of the LineString returned by shapely
(modelled as `none`) instead of returning anything. -/
theorem c1_counterexample :
    checkIntersection ⟨[], [⟨(1, 0), (2, 0)⟩], []⟩ (0, 0) (4, 0) = none
    ∧ segInter (0, 0) (4, 0) (1, 0) (2, 0) = .overlap := by
  constructor
  · norm_num [checkIntersection, scanObstacles, scanPortals, segInter, vsub,
      cross2, dot2, onSegment, sqDist, Prod.mk.injEq, -Prod.mk_zero_zero,
      Prod.ext_iff]
  · norm_num [segInter, vsub, cross2, dot2, onSegment, Prod.mk.injEq,
      -Prod.mk_zero_zero, Prod.ext_iff]

/-- Witness for C1 (amended): two obstacles and one portal crossing the
path from (0,0) to (4,0), none collinear with it. -/
theorem c1_witness :
    (checkIntersection ⟨[], [⟨(3, -1), (3, 1)⟩, ⟨(1, -1), (1, 1)⟩],
          [⟨(2, -1), (2, 1), (10, 10)⟩]⟩ (0, 0) (4, 0)
        = some (.free (4, 0))
      ∧ allHits ⟨[], [⟨(3, -1), (3, 1)⟩, ⟨(1, -1), (1, 1)⟩],
          [⟨(2, -1), (2, 1), (10, 10)⟩]⟩ (0, 0) (4, 0) = [])
    ∨ ∃ dh : ℚ × Hit, FirstMin (allHits ⟨[], [⟨(3, -1), (3, 1)⟩,
          ⟨(1, -1), (1, 1)⟩], [⟨(2, -1), (2, 1), (10, 10)⟩]⟩ (0, 0) (4, 0)) dh
        ∧ checkIntersection ⟨[], [⟨(3, -1), (3, 1)⟩, ⟨(1, -1), (1, 1)⟩],
            [⟨(2, -1), (2, 1), (10, 10)⟩]⟩ (0, 0) (4, 0)
          = some (hitRes dh.2) :=
  c1_amended ⟨[], [⟨(3, -1), (3, 1)⟩, ⟨(1, -1), (1, 1)⟩],
      [⟨(2, -1), (2, 1), (10, 10)⟩]⟩ (0, 0) (4, 0)
    (by constructor <;>
      norm_num [segInter, vsub, cross2, dot2, onSegment, Prod.mk.injEq,
        -Prod.mk_zero_zero, Prod.ext_iff] <;>
      and_intros <;> exact fun h => nomatch h)

/-- Witness for C3: a walker at (0,1) whose proposed move resolves to the
obstacle segment from (-1,-1/2) to (1,-1/2); the iteration keeps the
walker unchanged and counts one unsuccessful move. -/
theorem c3_witness :
    ∃ s', simStep (fun _ => 0)
        ⟨[], [⟨(-1, -(1 : ℚ)/2), (1, -(1 : ℚ)/2)⟩], []⟩ 9 1
        ⟨[], (0, -1)⟩
        { walker := ⟨0, 1, 1, [(0, 0), (0, 1)], [1, 1, 1, 1, 1], 3⟩,
          stats := [], distO := 0, distX := 1, distY := 0, yCross := 0,
          stepsToExit := 0, exitRecorded := false, unsuccessful := 0,
          totO := 0, totX := 0, totY := 0 } = some s'
      ∧ s'.walker = ⟨0, 1, 1, [(0, 0), (0, 1)], [1, 1, 1, 1, 1], 3⟩
      ∧ s'.unsuccessful = 0 + 1 :=
  c3_obstacle_rejected (fun _ => 0)
    ⟨[], [⟨(-1, -(1 : ℚ)/2), (1, -(1 : ℚ)/2)⟩], []⟩ 9 1 ⟨[], (0, -1)⟩
    { walker := ⟨0, 1, 1, [(0, 0), (0, 1)], [1, 1, 1, 1, 1], 3⟩,
      stats := [], distO := 0, distX := 1, distY := 0, yCross := 0,
      stepsToExit := 0, exitRecorded := false, unsuccessful := 0,
      totO := 0, totX := 0, totY := 0 }
    ⟨(-1, -(1 : ℚ)/2), (1, -(1 : ℚ)/2)⟩
    (by norm_num [checkIntersection, scanObstacles, scanPortals, segInter,
      vsub, cross2, dot2, onSegment, sqDist, hitRes, Prod.mk.injEq,
      -Prod.mk_zero_zero, Prod.ext_iff])

/-- Witness for C4: the portal of the spec's test sentence — segment
(2,0)-(2,2) with destination (10,10) — hit by a walker (here standing at
(0,1)) whose proposed next_position argument is (4,0). -/
theorem c4_witness :
    resolveMove ⟨[], [], [⟨(2, 0), (2, 2), (10, 10)⟩]⟩
        ⟨0, 1, 1, [(0, 0), (0, 1)], [1, 1, 1, 1, 1], 3⟩ (4, 0)
      = some (Walker.set_position
          ⟨0, 1, 1, [(0, 0), (0, 1)], [1, 1, 1, 1, 1], 3⟩ 10 10, 0)
    ∧ (∀ (w : Walker) (a b : ℚ),
        (w.set_position a b).x = a ∧ (w.set_position a b).y = b
        ∧ (w.set_position a b).steps = w.steps
        ∧ (w.set_position a b).path = w.path
        ∧ (w.set_position a b).walker_type = w.walker_type
        ∧ (w.set_position a b).weights = w.weights)
    ∧ ∀ s', simStep (fun _ => 0) ⟨[], [], [⟨(2, 0), (2, 2), (10, 10)⟩]⟩ 9 1
          ⟨[], (4, 0)⟩
          { walker := ⟨0, 1, 1, [(0, 0), (0, 1)], [1, 1, 1, 1, 1], 3⟩,
            stats := [], distO := 0, distX := 1, distY := 0, yCross := 0,
            stepsToExit := 0, exitRecorded := false, unsuccessful := 0,
            totO := 0, totX := 0, totY := 0 } = some s' →
        s'.walker = Walker.set_position
          ⟨0, 1, 1, [(0, 0), (0, 1)], [1, 1, 1, 1, 1], 3⟩ 10 10 :=
  c4_portal_teleport (fun _ => 0) ⟨[], [], [⟨(2, 0), (2, 2), (10, 10)⟩]⟩ 9 1
    ⟨[], (4, 0)⟩
    { walker := ⟨0, 1, 1, [(0, 0), (0, 1)], [1, 1, 1, 1, 1], 3⟩,
      stats := [], distO := 0, distX := 1, distY := 0, yCross := 0,
      stepsToExit := 0, exitRecorded := false, unsuccessful := 0,
      totO := 0, totX := 0, totY := 0 }
    ⟨(2, 0), (2, 2), (10, 10)⟩
    (by norm_num [checkIntersection, scanObstacles, scanPortals, segInter,
      vsub, cross2, dot2, onSegment, sqDist, hitRes, Prod.mk.injEq,
      -Prod.mk_zero_zero, Prod.ext_iff])
